import Mathlib

/-!
Verification of the quadric-surface ray-intersection core and the scene
container of the repository.  The definitions below are shallow embeddings of
the C++ sources:

- App/Source/Quadric/Quadric.cpp        (BoundingBox, QuadricSurface)
- App/Source/QuadricManager/QuadricManager.cpp  (Quadric, QuadricManager)

Machine floats are idealized as real numbers.  The one place where IEEE-754
behaviour is load-bearing is the slab method of BoundingBox::Intersect, whose
divisions by a zero direction component produce infinities (or NaN) that flow
through std::min / std::max; there the float values are modelled by the type
FE below, with division, comparison, min and max following IEEE semantics.
-/

open Classical

-- ===========================================================================
-- Float values for the slab method: finite real, +inf, -inf, or NaN.
-- ===========================================================================

inductive FE where
  | fin (x : ℝ)
  | pinf
  | ninf
  | nan

/-- IEEE division num/den for the slab method: den ≠ 0 gives a finite
quotient; den = 0 gives +inf, -inf, or NaN according to the sign of num. -/
noncomputable def fdiv (num den : ℝ) : FE :=
  if den = 0 then
    if 0 < num then FE.pinf else if num < 0 then FE.ninf else FE.nan
  else FE.fin (num / den)

/-- IEEE strict less-than: any comparison involving NaN is false. -/
def flt : FE → FE → Prop
  | FE.fin a, FE.fin b => a < b
  | FE.fin _, FE.pinf => True
  | FE.ninf, FE.fin _ => True
  | FE.ninf, FE.pinf => True
  | _, _ => False

/-- IEEE less-or-equal: any comparison involving NaN is false. -/
def fle : FE → FE → Prop
  | FE.fin a, FE.fin b => a ≤ b
  | FE.fin _, FE.pinf => True
  | FE.ninf, FE.fin _ => True
  | FE.ninf, FE.pinf => True
  | FE.ninf, FE.ninf => True
  | FE.pinf, FE.pinf => True
  | _, _ => False

/-- std::min(a, b) = (b < a) ? b : a, with IEEE comparison. -/
noncomputable def fmin (a b : FE) : FE := if flt b a then b else a

/-- std::max(a, b) = (a < b) ? b : a, with IEEE comparison. -/
noncomputable def fmax (a b : FE) : FE := if flt a b then b else a

-- ===========================================================================
-- Vectors (glm::vec3 idealized over ℝ)
-- ===========================================================================

structure Vec3 where
  x : ℝ
  y : ℝ
  z : ℝ

def dot (u v : Vec3) : ℝ := u.x * v.x + u.y * v.y + u.z * v.z

def vneg (v : Vec3) : Vec3 := ⟨-v.x, -v.y, -v.z⟩

/-- glm length: sqrt of the dot product with itself. -/
noncomputable def vnorm (v : Vec3) : ℝ := Real.sqrt (dot v v)

/-- glm::normalize: v divided by its length. -/
noncomputable def vnormalize (v : Vec3) : Vec3 :=
  ⟨v.x / vnorm v, v.y / vnorm v, v.z / vnorm v⟩

/-- Ray parametrization P(t) = origin + t * direction (Quadric.cpp:204). -/
def pointAt (origin direction : Vec3) (t : ℝ) : Vec3 :=
  ⟨origin.x + t * direction.x, origin.y + t * direction.y,
   origin.z + t * direction.z⟩

-- ===========================================================================
-- Data model (Quadric.h)
-- ===========================================================================

/-- The ten coefficients of Ax² + By² + Cz² + Dxy + Exz + Fyz + Gx + Hy + Iz + J. -/
structure QuadricCoefficients where
  A : ℝ
  B : ℝ
  C : ℝ
  D : ℝ
  E : ℝ
  F : ℝ
  G : ℝ
  H : ℝ
  I : ℝ
  J : ℝ

/-- Axis-aligned bounding box (Quadric.h); default extent is ±10. -/
structure BoundingBox where
  Min : Vec3
  Max : Vec3

structure IntersectionResult where
  Hit : Bool
  Distance : ℝ
  Point : Vec3
  Normal : Vec3

/-- Default-constructed IntersectionResult with Hit already forced false
(Quadric.cpp:117-118); Normal defaults to (0,1,0) per Quadric.h. -/
def missResult : IntersectionResult := ⟨false, 0, ⟨0, 0, 0⟩, ⟨0, 1, 0⟩⟩

structure QuadricSurface where
  m_Coefficients : QuadricCoefficients
  m_BoundingBox : BoundingBox
  m_UseBoundingBox : Bool

-- ===========================================================================
-- BoundingBox operations (Quadric.cpp:16-46)
-- ===========================================================================

/-- Componentwise inclusive containment test (Quadric.cpp:16-21). -/
def BoundingBox.Contains (b : BoundingBox) (point : Vec3) : Prop :=
  point.x ≥ b.Min.x ∧ point.x ≤ b.Max.x ∧
  point.y ≥ b.Min.y ∧ point.y ≤ b.Max.y ∧
  point.z ≥ b.Min.z ∧ point.z ≤ b.Max.z

/-- Slab-method ray/box intersection (Quadric.cpp:23-46).  Returns the pair
(hit, (tMin, tMax)); the C++ returns the bool and writes tMin/tMax through
reference parameters.  The shadowed lets mirror the in-place updates. -/
noncomputable def BoundingBox.Intersect (b : BoundingBox)
    (origin direction : Vec3) : Prop × FE × FE :=
  let t1 := fdiv (b.Min.x - origin.x) direction.x
  let t2 := fdiv (b.Max.x - origin.x) direction.x
  let tMin := fmin t1 t2
  let tMax := fmax t1 t2
  let t1 := fdiv (b.Min.y - origin.y) direction.y
  let t2 := fdiv (b.Max.y - origin.y) direction.y
  let tMin := fmax tMin (fmin t1 t2)
  let tMax := fmin tMax (fmax t1 t2)
  let t1 := fdiv (b.Min.z - origin.z) direction.z
  let t2 := fdiv (b.Max.z - origin.z) direction.z
  let tMin := fmax tMin (fmin t1 t2)
  let tMax := fmin tMax (fmax t1 t2)
  (fle tMin tMax ∧ fle (FE.fin 0) tMax, tMin, tMax)

-- ===========================================================================
-- Quadratic solver (Quadric.cpp:83-111)
-- ===========================================================================

/-- The intermediate value q of SolveQuadratic (Quadric.cpp:102):
q = (B < 0) ? (-B - sqrtD) / 2 : (-B + sqrtD) / 2. -/
noncomputable def solveQ (B sqrtD : ℝ) : ℝ :=
  if B < 0 then (-B - sqrtD) / 2 else (-B + sqrtD) / 2

/-- Modelled from the spec: the spec's formula for the intermediate value,
q = (−b − sign(b)·sqrt(discriminant)) / 2 with sign(b) = −1 when b < 0 and +1
otherwise.  Kept separate from solveQ (the source's formula) so the two can
be compared. -/
noncomputable def specQ (B sqrtD : ℝ) : ℝ :=
  (-B - (if B < 0 then (-1 : ℝ) else 1) * sqrtD) / 2

/-- QuadricSurface::SolveQuadratic (Quadric.cpp:83-111).  Returns none when
the C++ returns false, otherwise the pair (t0, t1) written through the
reference parameters.  A const member that reads no state, so modelled as a
plain function. -/
noncomputable def SolveQuadratic (A B C : ℝ) : Option (ℝ × ℝ) :=
  if |A| < 1e-6 then
    if |B| < 1e-6 then none
    else some (-C / B, -C / B)
  else
    let discriminant := B * B - 4 * A * C
    if discriminant < 0 then none
    else
      let sqrtDiscriminant := Real.sqrt discriminant
      let q := solveQ B sqrtDiscriminant
      let t0 := q / A
      let t1 := C / q
      if t0 > t1 then some (t1, t0) else some (t0, t1)

-- ===========================================================================
-- QuadricSurface operations (Quadric.cpp:113-288)
-- ===========================================================================

/-- Coefficient of t² of the substituted quadratic (Quadric.cpp:152-157). -/
def rayA (s : QuadricSurface) (O d : Vec3) : ℝ :=
  s.m_Coefficients.A * d.x * d.x +
  s.m_Coefficients.B * d.y * d.y +
  s.m_Coefficients.C * d.z * d.z +
  s.m_Coefficients.D * d.x * d.y +
  s.m_Coefficients.E * d.x * d.z +
  s.m_Coefficients.F * d.y * d.z

/-- Coefficient of t of the substituted quadratic (Quadric.cpp:160-168). -/
def rayB (s : QuadricSurface) (O d : Vec3) : ℝ :=
  2 * s.m_Coefficients.A * O.x * d.x +
  2 * s.m_Coefficients.B * O.y * d.y +
  2 * s.m_Coefficients.C * O.z * d.z +
  s.m_Coefficients.D * (O.x * d.y + O.y * d.x) +
  s.m_Coefficients.E * (O.x * d.z + O.z * d.x) +
  s.m_Coefficients.F * (O.y * d.z + O.z * d.y) +
  s.m_Coefficients.G * d.x +
  s.m_Coefficients.H * d.y +
  s.m_Coefficients.I * d.z

/-- Constant term of the substituted quadratic (Quadric.cpp:171-180). -/
def rayC (s : QuadricSurface) (O d : Vec3) : ℝ :=
  s.m_Coefficients.A * O.x * O.x +
  s.m_Coefficients.B * O.y * O.y +
  s.m_Coefficients.C * O.z * O.z +
  s.m_Coefficients.D * O.x * O.y +
  s.m_Coefficients.E * O.x * O.z +
  s.m_Coefficients.F * O.y * O.z +
  s.m_Coefficients.G * O.x +
  s.m_Coefficients.H * O.y +
  s.m_Coefficients.I * O.z +
  s.m_Coefficients.J

/-- QuadricSurface::Evaluate (Quadric.cpp:238-258). -/
def QuadricSurface.Evaluate (s : QuadricSurface) (point : Vec3) : ℝ :=
  s.m_Coefficients.A * point.x * point.x +
  s.m_Coefficients.B * point.y * point.y +
  s.m_Coefficients.C * point.z * point.z +
  s.m_Coefficients.D * point.x * point.y +
  s.m_Coefficients.E * point.x * point.z +
  s.m_Coefficients.F * point.y * point.z +
  s.m_Coefficients.G * point.x +
  s.m_Coefficients.H * point.y +
  s.m_Coefficients.I * point.z +
  s.m_Coefficients.J

/-- QuadricSurface::CalculateNormal, the gradient (Quadric.cpp:260-288). -/
def QuadricSurface.CalculateNormal (s : QuadricSurface) (point : Vec3) : Vec3 :=
  ⟨2 * s.m_Coefficients.A * point.x + s.m_Coefficients.D * point.y +
     s.m_Coefficients.E * point.z + s.m_Coefficients.G,
   2 * s.m_Coefficients.B * point.y + s.m_Coefficients.D * point.x +
     s.m_Coefficients.F * point.z + s.m_Coefficients.H,
   2 * s.m_Coefficients.C * point.z + s.m_Coefficients.E * point.x +
     s.m_Coefficients.F * point.y + s.m_Coefficients.I⟩

/-- Interval test t >= tMin && t <= tMax against the (possibly infinite)
restricted range (Quadric.cpp:190,194,210). -/
def inRangeFE (lo hi : FE) (t : ℝ) : Prop :=
  fle lo (FE.fin t) ∧ fle (FE.fin t) hi

/-- Tail of Intersect from line 223 on: gradient normal, orientation flip,
and the filled-in result (Quadric.cpp:223-235). -/
noncomputable def QuadricSurface.finishHit (s : QuadricSurface)
    (rayDirection : Vec3) (t : ℝ) (hitPoint : Vec3) : IntersectionResult :=
  let normal := s.CalculateNormal hitPoint
  let normal := if dot normal rayDirection > 0 then vneg normal else normal
  ⟨true, t, hitPoint, vnormalize normal⟩

/-- Bounding-box containment check and other-root retry for a chosen root t
(Quadric.cpp:203-221), followed by finishHit. -/
noncomputable def QuadricSurface.clipAndFinish (s : QuadricSurface)
    (rayOrigin rayDirection : Vec3) (lo hi : FE) (t0 t1 t : ℝ) :
    IntersectionResult :=
  let hitPoint := pointAt rayOrigin rayDirection t
  if s.m_UseBoundingBox = true ∧ ¬ s.m_BoundingBox.Contains hitPoint then
    if t = t0 ∧ inRangeFE lo hi t1 then
      let hitPoint2 := pointAt rayOrigin rayDirection t1
      if ¬ s.m_BoundingBox.Contains hitPoint2 then missResult
      else s.finishHit rayDirection t1 hitPoint2
    else missResult
  else s.finishHit rayDirection t hitPoint

/-- Closest-valid-root selection (Quadric.cpp:187-201): prefer t0, else t1,
else miss. -/
noncomputable def QuadricSurface.selectRoot (s : QuadricSurface)
    (rayOrigin rayDirection : Vec3) (lo hi : FE) (t0 t1 : ℝ) :
    IntersectionResult :=
  if inRangeFE lo hi t0 then
    s.clipAndFinish rayOrigin rayDirection lo hi t0 t1 t0
  else if inRangeFE lo hi t1 then
    s.clipAndFinish rayOrigin rayDirection lo hi t0 t1 t1
  else missResult

/-- Bounding-box phase of Intersect (Quadric.cpp:120-130): none when the box
test rejects the ray, otherwise the search range narrowed to the box overlap
via tMin = std::max(tMin, boxTMin), tMax = std::min(tMax, boxTMax). -/
noncomputable def QuadricSurface.intersectRange (s : QuadricSurface)
    (rayOrigin rayDirection : Vec3) (tMin tMax : ℝ) : Option (FE × FE) :=
  if s.m_UseBoundingBox then
    let box := s.m_BoundingBox.Intersect rayOrigin rayDirection
    if box.1 then some (fmax (FE.fin tMin) box.2.1, fmin (FE.fin tMax) box.2.2)
    else none
  else some (FE.fin tMin, FE.fin tMax)

/-- QuadricSurface::Intersect (Quadric.cpp:113-236).  The C++ default
arguments are tMin = 0.001 and tMax = 1000. -/
noncomputable def QuadricSurface.Intersect (s : QuadricSurface)
    (rayOrigin rayDirection : Vec3) (tMin tMax : ℝ) : IntersectionResult :=
  match s.intersectRange rayOrigin rayDirection tMin tMax with
  | none => missResult
  | some (lo, hi) =>
    match SolveQuadratic (rayA s rayOrigin rayDirection)
        (rayB s rayOrigin rayDirection) (rayC s rayOrigin rayDirection) with
    | none => missResult
    | some (t0, t1) => s.selectRoot rayOrigin rayDirection lo hi t0 t1

-- ===========================================================================
-- Factory methods (Quadric.cpp:294-331)
-- ===========================================================================

/-- QuadricSurface::CreateSphere (Quadric.cpp:294-304): A=B=C=1, J=-r²; the
single-argument constructor leaves the default box disabled, Min/Max from the
header defaults vec3(±10). -/
def QuadricSurface.CreateSphere (radius : ℝ) : QuadricSurface :=
  ⟨⟨1, 1, 1, 0, 0, 0, 0, 0, 0, -(radius * radius)⟩,
   ⟨⟨-10, -10, -10⟩, ⟨10, 10, 10⟩⟩, false⟩

/-- QuadricSurface::CreateCylinder (Quadric.cpp:318-331): x² + y² - r² = 0
with an enabled bounding box of ±(r+1) in x, y and ±height/2 in z. -/
noncomputable def QuadricSurface.CreateCylinder (radius height : ℝ) : QuadricSurface :=
  ⟨⟨1, 1, 0, 0, 0, 0, 0, 0, 0, -(radius * radius)⟩,
   ⟨⟨-radius - 1, -radius - 1, -height / 2⟩,
    ⟨radius + 1, radius + 1, height / 2⟩⟩, true⟩

-- ===========================================================================
-- Scene container (QuadricManager.h / QuadricManager.cpp)
-- ===========================================================================

/-- Scene entry struct Quadric (QuadricManager.h): ten coefficients, a
bounding box, and a material index. -/
structure Quadric where
  A : ℝ
  B : ℝ
  C : ℝ
  D : ℝ
  E : ℝ
  F : ℝ
  G : ℝ
  H : ℝ
  I : ℝ
  J : ℝ
  bboxMin : Vec3
  bboxMax : Vec3
  materialIndex : ℤ

/-- The zeroed entry: both the constructor's bulk initialization
(QuadricManager.cpp:14-18) and the zero-initialized function-local static
fallback of the accessors. -/
def emptyQuadric : Quadric :=
  ⟨0, 0, 0, 0, 0, 0, 0, 0, 0, 0, ⟨0, 0, 0⟩, ⟨0, 0, 0⟩, 0⟩

/-- QuadricManager state.  emptyNC models the function-local static fallback
entry of the non-const GetQuadric overload (QuadricManager.cpp:261): one
shared mutable entry aliased by every out-of-range access. -/
structure QuadricManager where
  m_Quadrics : Fin 8 → Quadric
  m_NumQuadrics : ℤ
  m_SelectedQuadric : ℤ
  m_ShowEditor : Bool
  emptyNC : Quadric

/-- Freshly constructed manager (QuadricManager.cpp:11-19 plus the in-class
member initializers): all eight entries zeroed, count 0, selection 0, editor
hidden, fallback entry still zero. -/
def QuadricManager.init : QuadricManager :=
  ⟨fun _ => emptyQuadric, 0, 0, false, emptyQuadric⟩

/-- Const overload of GetQuadric (QuadricManager.cpp:247-255): out-of-range
indices yield the const overload's own zero-initialized static entry. -/
def GetQuadricConst (m : QuadricManager) (index : ℤ) : Quadric :=
  if h : index < 0 ∨ 8 ≤ index then emptyQuadric
  else m.m_Quadrics ⟨index.toNat, by omega⟩

/-- Reading through the non-const overload of GetQuadric
(QuadricManager.cpp:257-265): out-of-range indices yield the current value of
the shared static fallback entry. -/
def GetQuadricRead (m : QuadricManager) (index : ℤ) : Quadric :=
  if h : index < 0 ∨ 8 ≤ index then m.emptyNC
  else m.m_Quadrics ⟨index.toNat, by omega⟩

/-- Writing a value through the reference returned by the non-const
GetQuadric (QuadricManager.cpp:257-265): in range the array slot is updated;
out of range the shared static fallback entry is overwritten.  No other
state, in particular m_NumQuadrics, is touched. -/
def SetQuadric (m : QuadricManager) (index : ℤ) (v : Quadric) :
    QuadricManager :=
  if h : index < 0 ∨ 8 ≤ index then
    ⟨m.m_Quadrics, m.m_NumQuadrics, m.m_SelectedQuadric, m.m_ShowEditor, v⟩
  else
    ⟨Function.update m.m_Quadrics ⟨index.toNat, by omega⟩ v,
     m.m_NumQuadrics, m.m_SelectedQuadric, m.m_ShowEditor, m.emptyNC⟩

/-- The quadric-selector handler of RenderEditor (QuadricManager.cpp:77-82),
run when the InputInt widget reports a new index: clamp to [0, MAX-1] with
glm::clamp = min(max(x, lo), hi), then extend the active count when the
selection reaches past it. -/
def RenderEditorSelect (m : QuadricManager) (newIndex : ℤ) : QuadricManager :=
  let s := min (max newIndex 0) 7
  let n := if s ≥ m.m_NumQuadrics then s + 1 else m.m_NumQuadrics
  ⟨m.m_Quadrics, n, s, m.m_ShowEditor, m.emptyNC⟩

/-- QuadricManager::InitializeDefaults (QuadricManager.cpp:24-55): writes the
gold sphere into slot 0 and the ellipsoid into slot 1, then sets the active
count to 2. -/
noncomputable def QuadricManager.InitializeDefaults (m : QuadricManager) :
    QuadricManager :=
  ⟨Function.update
     (Function.update m.m_Quadrics 0
       ⟨1, 1, 1, 0, 0, 0, -4, 4, 0, 7.64,
        ⟨1.4, -2.6, -0.6⟩, ⟨2.6, -1.4, 0.6⟩, 4⟩) 1
     ⟨0.64, 0.25, 1, 0, 0, 0, 2.56, 1, 4, 7.4,
      ⟨-2.5, -2.8, -2.4⟩, ⟨-1.5, -1.2, -1.6⟩, 8⟩,
   2, m.m_SelectedQuadric, m.m_ShowEditor, m.emptyNC⟩

/-- The editor's Sphere (r=1) preset entry (QuadricManager.cpp:165-166); used
as a concrete value to write in the container theorems below. -/
def sampleEntry : Quadric :=
  ⟨1, 1, 1, 0, 0, 0, 0, 0, 0, -1, ⟨-1, -1, -1⟩, ⟨1, 1, 1⟩, 6⟩

/-- A surface whose substituted t²-coefficient is nonzero but below the 1e-6
linear-fallback threshold for the ray (origin 0, direction +x):
f(x,y,z) = (1/2000000)·x² + x - 1000.  Built like the coefficients-only
constructor: default box, box disabled. -/
noncomputable def linThresholdSurface : QuadricSurface :=
  ⟨⟨1 / 2000000, 0, 0, 0, 0, 0, 1, 0, 0, -1000⟩,
   ⟨⟨-10, -10, -10⟩, ⟨10, 10, 10⟩⟩, false⟩

-- ===========================================================================
-- Theorems: scene container (claims C8, C9, C10)
-- ===========================================================================

/-- Claim C8 (counterexample): writing the entry at index 5 through the
container's write access while the active count is 2 leaves the active count
at 2; it is not extended to 6. -/
theorem setQuadric_does_not_extend_count :
    (QuadricManager.init.InitializeDefaults).m_NumQuadrics = 2 ∧
    (2 : ℤ) ≤ 5 ∧ (5 : ℤ) < 8 ∧
    (SetQuadric QuadricManager.init.InitializeDefaults 5
        sampleEntry).m_NumQuadrics = 2 ∧
    (SetQuadric QuadricManager.init.InitializeDefaults 5
        sampleEntry).m_NumQuadrics ≠ 5 + 1 := by
  have hset : (SetQuadric QuadricManager.init.InitializeDefaults 5
      sampleEntry).m_NumQuadrics = 2 := by
    rw [SetQuadric, dif_neg (by omega)]
    rfl
  refine ⟨rfl, by norm_num, by norm_num, hset, ?_⟩
  rw [hset]
  norm_num

/-- Claim C8 (amended): the active count is extended to i+1 by the editor's
index-selection step (the InputInt handler of RenderEditor), not by the write
access itself: for active count ≤ i < 8, selecting index i sets the count to
i + 1, while writing through the non-const GetQuadric leaves it unchanged. -/
theorem renderEditorSelect_extends_count (m : QuadricManager) (i : ℤ)
    (h0 : 0 ≤ i) (h8 : i < 8) (hcount : m.m_NumQuadrics ≤ i) :
    (RenderEditorSelect m i).m_NumQuadrics = i + 1 ∧
    ∀ v : Quadric, (SetQuadric m i v).m_NumQuadrics = m.m_NumQuadrics := by
  constructor
  · rw [RenderEditorSelect]
    have hs : min (max i 0) 7 = i := by omega
    simp only [hs]
    rw [if_pos hcount]
  · intro v
    rw [SetQuadric, dif_neg (by omega)]

/-- Claim C8 (witness): concrete instance of the amended theorem at index 5
of a manager holding two active entries. -/
theorem renderEditorSelect_extends_count_witness :
    (RenderEditorSelect QuadricManager.init.InitializeDefaults 5).m_NumQuadrics
      = 5 + 1 ∧
    (SetQuadric QuadricManager.init.InitializeDefaults 5
        sampleEntry).m_NumQuadrics
      = (QuadricManager.init.InitializeDefaults).m_NumQuadrics := by
  have h := renderEditorSelect_extends_count QuadricManager.init.InitializeDefaults
    5 (by norm_num) (by norm_num) (by show (2 : ℤ) ≤ 5; norm_num)
  exact ⟨h.1, h.2 sampleEntry⟩

/-- Claim C9: an out-of-range index is a safe total no-op: the const overload
returns its zero-initialized fallback entry, the non-const overload returns
the shared fallback entry (still empty on a fresh manager), and neither the
eight stored entries nor the active count are touched, even by a write. -/
theorem getQuadric_out_of_range_safe (m : QuadricManager) (i : ℤ)
    (h : i < 0 ∨ 8 ≤ i) :
    GetQuadricConst m i = emptyQuadric ∧
    GetQuadricRead m i = m.emptyNC ∧
    GetQuadricRead QuadricManager.init i = emptyQuadric ∧
    ∀ v : Quadric, (SetQuadric m i v).m_Quadrics = m.m_Quadrics ∧
      (SetQuadric m i v).m_NumQuadrics = m.m_NumQuadrics := by
  refine ⟨?_, ?_, ?_, ?_⟩
  · rw [GetQuadricConst, dif_pos h]
  · rw [GetQuadricRead, dif_pos h]
  · rw [GetQuadricRead, dif_pos h]
    rfl
  · intro v
    rw [SetQuadric, dif_pos h]
    exact ⟨rfl, rfl⟩

/-- Claim C9 (witness): concrete instance at index 9 of a manager holding two
active entries. -/
theorem getQuadric_out_of_range_safe_witness :
    GetQuadricConst QuadricManager.init.InitializeDefaults 9 = emptyQuadric ∧
    (SetQuadric QuadricManager.init.InitializeDefaults 9
        sampleEntry).m_NumQuadrics
      = (QuadricManager.init.InitializeDefaults).m_NumQuadrics := by
  have h := getQuadric_out_of_range_safe QuadricManager.init.InitializeDefaults
    9 (Or.inr (by norm_num))
  exact ⟨h.1, (h.2.2.2 sampleEntry).2⟩

/-- Claim C10: all out-of-range indices alias the one shared mutable fallback
entry of the non-const GetQuadric: after writing v through index i, reading
ANY out-of-range index j returns v, while the eight stored entries and the
active count are unchanged. -/
theorem getQuadric_fallback_aliasing (m : QuadricManager) (i j : ℤ)
    (v : Quadric) (hi : i < 0 ∨ 8 ≤ i) (hj : j < 0 ∨ 8 ≤ j) :
    GetQuadricRead (SetQuadric m i v) j = v ∧
    (SetQuadric m i v).m_Quadrics = m.m_Quadrics ∧
    (SetQuadric m i v).m_NumQuadrics = m.m_NumQuadrics := by
  rw [SetQuadric, dif_pos hi, GetQuadricRead, dif_pos hj]
  exact ⟨rfl, rfl, rfl⟩

/-- Claim C10 (witness): write through index -1, read back through index 99. -/
theorem getQuadric_fallback_aliasing_witness :
    GetQuadricRead (SetQuadric QuadricManager.init (-1) sampleEntry) 99
      = sampleEntry ∧
    (SetQuadric QuadricManager.init (-1) sampleEntry).m_NumQuadrics
      = QuadricManager.init.m_NumQuadrics := by
  have h := getQuadric_fallback_aliasing QuadricManager.init (-1) 99 sampleEntry
    (Or.inl (by norm_num)) (Or.inr (by norm_num))
  exact ⟨h.1, h.2.2⟩

-- ===========================================================================
-- Helper lemmas: FE comparisons and min/max
-- ===========================================================================

theorem flt_fin_fin (a b : ℝ) : flt (FE.fin a) (FE.fin b) = (a < b) := rfl

theorem fle_fin_fin (a b : ℝ) : fle (FE.fin a) (FE.fin b) = (a ≤ b) := rfl

theorem flt_pinf_left (x : FE) : flt FE.pinf x = False := by
  cases x <;> rfl

theorem flt_ninf_right (x : FE) : flt x FE.ninf = False := by
  cases x <;> rfl

theorem fle_fin_ninf (a : ℝ) : fle (FE.fin a) FE.ninf = False := rfl

theorem fmin_fin_pinf (a : ℝ) : fmin (FE.fin a) FE.pinf = FE.fin a := by
  rw [fmin, if_neg]
  rw [flt_pinf_left]
  exact not_false

theorem fmax_fin_ninf (a : ℝ) : fmax (FE.fin a) FE.ninf = FE.fin a := by
  rw [fmax, if_neg]
  rw [flt_ninf_right]
  exact not_false

theorem fmin_ninf_pinf : fmin FE.ninf FE.pinf = FE.ninf := by
  rw [fmin, if_neg]
  rw [flt_pinf_left]
  exact not_false

theorem fmax_ninf_pinf : fmax FE.ninf FE.pinf = FE.pinf := by
  rw [fmax, if_pos]
  exact trivial

theorem fmin_ninf_ninf : fmin FE.ninf FE.ninf = FE.ninf := by
  rw [fmin, if_neg]
  rw [flt_ninf_right]
  exact not_false

theorem fmax_ninf_ninf : fmax FE.ninf FE.ninf = FE.ninf := by
  rw [fmax, if_neg]
  rw [flt_ninf_right]
  exact not_false

theorem fmin_fin_ninf (a : ℝ) : fmin (FE.fin a) FE.ninf = FE.ninf := by
  rw [fmin, if_pos]
  exact trivial

theorem fmin_fin_fin (a b : ℝ) : fmin (FE.fin a) (FE.fin b) =
    FE.fin (if b < a then b else a) := by
  rw [fmin, flt_fin_fin]
  split <;> rfl

theorem fmax_fin_fin (a b : ℝ) : fmax (FE.fin a) (FE.fin b) =
    FE.fin (if a < b then b else a) := by
  rw [fmax, flt_fin_fin]
  split <;> rfl

theorem fdiv_of_ne (num den : ℝ) (h : den ≠ 0) :
    fdiv num den = FE.fin (num / den) := by
  rw [fdiv, if_neg h]

theorem fdiv_zero_pos (num : ℝ) (h : 0 < num) : fdiv num 0 = FE.pinf := by
  rw [fdiv, if_pos rfl, if_pos h]

theorem fdiv_zero_neg (num : ℝ) (h : num < 0) : fdiv num 0 = FE.ninf := by
  rw [fdiv, if_pos rfl, if_neg (by linarith), if_pos h]

-- ===========================================================================
-- Helper lemmas: the quadratic solver produces exact roots
-- ===========================================================================

theorem sqrt_eq_of_sq (a b : ℝ) (hb : 0 ≤ b) (h : b ^ 2 = a) :
    Real.sqrt a = b := by
  rw [← h, Real.sqrt_sq hb]

theorem abs_ge_thresh_ne_zero {x : ℝ} (h : ¬ |x| < 1e-6) : x ≠ 0 := by
  intro h0
  apply h
  rw [h0, abs_zero]
  norm_num

theorem solveQ_sq (B sq : ℝ) : (2 * solveQ B sq + B) ^ 2 = sq ^ 2 := by
  rw [solveQ]
  split <;> ring

theorem solveQ_key (A B C : ℝ) (hd : 0 ≤ B * B - 4 * A * C) :
    solveQ B (Real.sqrt (B * B - 4 * A * C)) ^ 2 +
      B * solveQ B (Real.sqrt (B * B - 4 * A * C)) + A * C = 0 := by
  have hs : Real.sqrt (B * B - 4 * A * C) ^ 2 = B * B - 4 * A * C :=
    Real.sq_sqrt hd
  have h2 := solveQ_sq B (Real.sqrt (B * B - 4 * A * C))
  linear_combination (1 / 4) * h2 + (1 / 4) * hs

/-- Whenever SolveQuadratic succeeds and the leading coefficient is either
exactly zero or above the linear-fallback threshold, both returned values are
exact roots of At² + Bt + C, and they are sorted. -/
theorem solveQuadratic_roots (A B C t0 t1 : ℝ)
    (h : SolveQuadratic A B C = some (t0, t1))
    (hA : A = 0 ∨ 1e-6 ≤ |A|) :
    A * t0 ^ 2 + B * t0 + C = 0 ∧ A * t1 ^ 2 + B * t1 + C = 0 ∧ t0 ≤ t1 := by
  simp only [SolveQuadratic] at h
  by_cases hsmall : |A| < 1e-6
  · have hA0 : A = 0 := by
      rcases hA with h0 | hge
      · exact h0
      · linarith
    rw [if_pos hsmall] at h
    by_cases hB : |B| < 1e-6
    · rw [if_pos hB] at h
      exact absurd h (by simp)
    · rw [if_neg hB] at h
      have hBne : B ≠ 0 := abs_ge_thresh_ne_zero hB
      rw [Option.some_inj, Prod.mk.injEq] at h
      obtain ⟨h1, h2⟩ := h
      subst h1
      subst h2
      rw [hA0]
      have e : (0 : ℝ) * (-C / B) ^ 2 + B * (-C / B) + C = 0 := by
        field_simp
        ring
      exact ⟨e, e, le_refl _⟩
  · rw [if_neg hsmall] at h
    have hAne : A ≠ 0 := abs_ge_thresh_ne_zero hsmall
    by_cases hd : B * B - 4 * A * C < 0
    · rw [if_pos hd] at h
      exact absurd h (by simp)
    · rw [if_neg hd] at h
      set q := solveQ B (Real.sqrt (B * B - 4 * A * C)) with hqdef
      have hkey := solveQ_key A B C (not_lt.mp hd)
      rw [← hqdef] at hkey
      have hroot0 : A * (q / A) ^ 2 + B * (q / A) + C = 0 := by
        have e : A * (q / A) ^ 2 + B * (q / A) + C
            = (q ^ 2 + B * q + A * C) / A := by
          field_simp
          ring
        rw [e, hkey, zero_div]
      have hroot1 : A * (C / q) ^ 2 + B * (C / q) + C = 0 := by
        by_cases hq0 : q = 0
        · have hC : C = 0 := by
            rw [hq0] at hkey
            simp at hkey
            rcases hkey with h0 | h0
            · exact absurd h0 hAne
            · exact h0
          rw [hq0, hC]
          simp
        · have e : A * (C / q) ^ 2 + B * (C / q) + C
              = C * (q ^ 2 + B * q + A * C) / q ^ 2 := by
            field_simp
            ring
          rw [e, hkey, mul_zero, zero_div]
      by_cases hswap : q / A > C / q
      · rw [if_pos hswap] at h
        rw [Option.some_inj, Prod.mk.injEq] at h
        obtain ⟨h1, h2⟩ := h
        subst h1
        subst h2
        exact ⟨hroot1, hroot0, le_of_lt hswap⟩
      · rw [if_neg hswap] at h
        rw [Option.some_inj, Prod.mk.injEq] at h
        obtain ⟨h1, h2⟩ := h
        subst h1
        subst h2
        exact ⟨hroot0, hroot1, not_lt.mp hswap⟩

/-- Substituting the ray parametrization into the quadric polynomial gives
exactly the quadratic with the expanded coefficients of Quadric.cpp:152-180. -/
theorem evaluate_pointAt (s : QuadricSurface) (O d : Vec3) (t : ℝ) :
    s.Evaluate (pointAt O d t)
      = rayA s O d * t ^ 2 + rayB s O d * t + rayC s O d := by
  simp only [QuadricSurface.Evaluate, pointAt, rayA, rayB, rayC]
  ring

-- ===========================================================================
-- Helper lemmas: vectors, normalization, finishHit
-- ===========================================================================

theorem dot_self_nonneg (v : Vec3) : 0 ≤ dot v v := by
  simp only [dot]
  nlinarith [mul_self_nonneg v.x, mul_self_nonneg v.y, mul_self_nonneg v.z]

theorem dot_self_eq_zero_iff (v : Vec3) : dot v v = 0 ↔ v = ⟨0, 0, 0⟩ := by
  obtain ⟨x, y, z⟩ := v
  simp only [dot, Vec3.mk.injEq]
  constructor
  · intro h
    refine ⟨?_, ?_, ?_⟩ <;>
      nlinarith [mul_self_nonneg x, mul_self_nonneg y, mul_self_nonneg z]
  · intro ⟨hx, hy, hz⟩
    rw [hx, hy, hz]
    ring

theorem vnorm_sq (v : Vec3) : vnorm v ^ 2 = dot v v :=
  Real.sq_sqrt (dot_self_nonneg v)

theorem vnorm_nonneg (v : Vec3) : 0 ≤ vnorm v := Real.sqrt_nonneg _

theorem vnormalize_unit (v : Vec3) (h : v ≠ ⟨0, 0, 0⟩) :
    vnorm (vnormalize v) = 1 := by
  have hd : dot v v ≠ 0 := fun h0 => h ((dot_self_eq_zero_iff v).mp h0)
  have hpos : 0 < dot v v := lt_of_le_of_ne (dot_self_nonneg v) (Ne.symm hd)
  have hL : vnorm v ≠ 0 := Real.sqrt_ne_zero'.mpr hpos
  have e : dot (vnormalize v) (vnormalize v) = dot v v / vnorm v ^ 2 := by
    simp only [vnormalize, dot]
    ring
  unfold vnorm
  rw [e, vnorm_sq, div_self hd]
  exact Real.sqrt_one

theorem dot_vnormalize_left (v d : Vec3) :
    dot (vnormalize v) d = dot v d / vnorm v := by
  simp only [vnormalize, dot]
  ring

theorem vneg_eq_zero_iff (v : Vec3) : vneg v = ⟨0, 0, 0⟩ ↔ v = ⟨0, 0, 0⟩ := by
  obtain ⟨x, y, z⟩ := v
  simp only [vneg, Vec3.mk.injEq, neg_eq_zero]

theorem dot_vneg_left (v d : Vec3) : dot (vneg v) d = -dot v d := by
  simp only [vneg, dot]
  ring

theorem finishHit_Hit (s : QuadricSurface) (d : Vec3) (t : ℝ) (p : Vec3) :
    (s.finishHit d t p).Hit = true := rfl

theorem finishHit_Distance (s : QuadricSurface) (d : Vec3) (t : ℝ) (p : Vec3) :
    (s.finishHit d t p).Distance = t := rfl

theorem finishHit_Point (s : QuadricSurface) (d : Vec3) (t : ℝ) (p : Vec3) :
    (s.finishHit d t p).Point = p := rfl

theorem finishHit_Normal (s : QuadricSurface) (d : Vec3) (t : ℝ) (p : Vec3) :
    (s.finishHit d t p).Normal
      = vnormalize (if dot (s.CalculateNormal p) d > 0
          then vneg (s.CalculateNormal p) else s.CalculateNormal p) := rfl

/-- The orientation-flip and normalization at the tail of Intersect produce a
unit normal that never points along the ray, provided the gradient at the hit
point is nonzero. -/
theorem finishHit_normal_invariant (s : QuadricSurface) (d : Vec3) (t : ℝ)
    (p : Vec3) (h : s.CalculateNormal p ≠ ⟨0, 0, 0⟩) :
    vnorm (s.finishHit d t p).Normal = 1 ∧
    dot (s.finishHit d t p).Normal d ≤ 0 := by
  rw [finishHit_Normal]
  set n := s.CalculateNormal p with hn
  have hne2 : (if dot n d > 0 then vneg n else n) ≠ ⟨0, 0, 0⟩ := by
    split
    · intro hc
      exact h ((vneg_eq_zero_iff n).mp hc)
    · exact h
  have hdot2 : dot (if dot n d > 0 then vneg n else n) d ≤ 0 := by
    split
    · rename_i hgt
      rw [dot_vneg_left]
      linarith
    · rename_i hle
      exact not_lt.mp hle
  refine ⟨vnormalize_unit _ hne2, ?_⟩
  rw [dot_vnormalize_left]
  exact div_nonpos_iff.mpr (Or.inr ⟨hdot2, vnorm_nonneg _⟩)

-- ===========================================================================
-- Helper lemmas: branch structure of Intersect
-- ===========================================================================

theorem missResult_Hit : missResult.Hit = false := rfl

/-- Quadric.cpp:203-221: clipAndFinish either misses or finishes at the
chosen root or the retried t1; every finished point passes the containment
check when the bounding box is enabled. -/
theorem clipAndFinish_cases (s : QuadricSurface) (O d : Vec3) (lo hi : FE)
    (t0 t1 t : ℝ) :
    s.clipAndFinish O d lo hi t0 t1 t = missResult ∨
    ∃ u : ℝ, (u = t ∨ u = t1) ∧
      s.clipAndFinish O d lo hi t0 t1 t = s.finishHit d u (pointAt O d u) ∧
      (s.m_UseBoundingBox = true → s.m_BoundingBox.Contains (pointAt O d u)) := by
  simp only [QuadricSurface.clipAndFinish]
  by_cases hbox : s.m_UseBoundingBox = true ∧
      ¬ s.m_BoundingBox.Contains (pointAt O d t)
  · rw [if_pos hbox]
    by_cases hretry : t = t0 ∧ inRangeFE lo hi t1
    · rw [if_pos hretry]
      by_cases hc2 : ¬ s.m_BoundingBox.Contains (pointAt O d t1)
      · rw [if_pos hc2]
        exact Or.inl rfl
      · rw [if_neg hc2]
        exact Or.inr ⟨t1, Or.inr rfl, rfl, fun _ => not_not.mp hc2⟩
    · rw [if_neg hretry]
      exact Or.inl rfl
  · rw [if_neg hbox]
    refine Or.inr ⟨t, Or.inl rfl, rfl, ?_⟩
    intro huse
    by_contra hc
    exact hbox ⟨huse, hc⟩

/-- Every run of Intersect either misses or finishes at one of the two solver
roots, with the hit point inside the bounding box whenever one is enabled. -/
theorem intersect_cases (s : QuadricSurface) (O d : Vec3) (tMin tMax : ℝ) :
    s.Intersect O d tMin tMax = missResult ∨
    ∃ t0 t1 u : ℝ,
      SolveQuadratic (rayA s O d) (rayB s O d) (rayC s O d) = some (t0, t1) ∧
      (u = t0 ∨ u = t1) ∧
      s.Intersect O d tMin tMax = s.finishHit d u (pointAt O d u) ∧
      (s.m_UseBoundingBox = true → s.m_BoundingBox.Contains (pointAt O d u)) := by
  rcases hR : s.intersectRange O d tMin tMax with _ | ⟨lo, hi⟩
  · left
    simp only [QuadricSurface.Intersect, hR]
  · rcases hS : SolveQuadratic (rayA s O d) (rayB s O d) (rayC s O d)
        with _ | ⟨t0, t1⟩
    · left
      simp only [QuadricSurface.Intersect, hR, hS]
    · have hI : s.Intersect O d tMin tMax = s.selectRoot O d lo hi t0 t1 := by
        simp only [QuadricSurface.Intersect, hR, hS]
      rw [hI]
      simp only [QuadricSurface.selectRoot]
      by_cases h0 : inRangeFE lo hi t0
      · rw [if_pos h0]
        rcases clipAndFinish_cases s O d lo hi t0 t1 t0 with hm | ⟨u, hu, he, hc⟩
        · exact Or.inl hm
        · exact Or.inr ⟨t0, t1, u, rfl, hu, he, hc⟩
      · rw [if_neg h0]
        by_cases h1 : inRangeFE lo hi t1
        · rw [if_pos h1]
          rcases clipAndFinish_cases s O d lo hi t0 t1 t1 with hm | ⟨u, hu, he, hc⟩
          · exact Or.inl hm
          · refine Or.inr ⟨t0, t1, u, rfl, ?_, he, hc⟩
            rcases hu with h | h
            · exact Or.inr h
            · exact Or.inr h
        · rw [if_neg h1]
          exact Or.inl rfl

theorem intersect_hit_shape (s : QuadricSurface) (O d : Vec3) (tMin tMax : ℝ)
    (hhit : (s.Intersect O d tMin tMax).Hit = true) :
    ∃ t0 t1 u : ℝ,
      SolveQuadratic (rayA s O d) (rayB s O d) (rayC s O d) = some (t0, t1) ∧
      (u = t0 ∨ u = t1) ∧
      s.Intersect O d tMin tMax = s.finishHit d u (pointAt O d u) ∧
      (s.m_UseBoundingBox = true → s.m_BoundingBox.Contains (pointAt O d u)) := by
  rcases intersect_cases s O d tMin tMax with hm | h
  · rw [hm, missResult_Hit] at hhit
    exact absurd hhit (by simp)
  · exact h

-- ===========================================================================
-- Theorems: normal invariant (claim C3)
-- ===========================================================================

/-- Claim C3: whenever Intersect returns Hit=true and the gradient at the hit
point is nonzero, the returned Normal is unit length and its dot product with
the ray direction is nonpositive. -/
theorem intersect_normal_invariant (s : QuadricSurface) (O d : Vec3)
    (tMin tMax : ℝ)
    (hhit : (s.Intersect O d tMin tMax).Hit = true)
    (hgrad : s.CalculateNormal (s.Intersect O d tMin tMax).Point ≠ ⟨0, 0, 0⟩) :
    vnorm (s.Intersect O d tMin tMax).Normal = 1 ∧
    dot (s.Intersect O d tMin tMax).Normal d ≤ 0 := by
  obtain ⟨t0, t1, u, hS, hu, he, hc⟩ := intersect_hit_shape s O d tMin tMax hhit
  rw [he, finishHit_Point] at hgrad
  rw [he]
  exact finishHit_normal_invariant s d u (pointAt O d u) hgrad

-- ===========================================================================
-- Theorems: hit points satisfy the surface equation (claim C4)
-- ===========================================================================

/-- Claim C4 (amended): whenever Intersect returns Hit=true AND the
t²-coefficient a of the substituted quadratic is either exactly zero or at
least the 1e-6 linear-fallback threshold, the returned Point satisfies the
implicit surface equation exactly.  (When 0 < |a| < 1e-6 the linear fallback
root leaves a nonzero residual a·t²; see the counterexample.) -/
theorem intersect_hit_evaluate_zero (s : QuadricSurface) (O d : Vec3)
    (tMin tMax : ℝ)
    (hhit : (s.Intersect O d tMin tMax).Hit = true)
    (hA : rayA s O d = 0 ∨ 1e-6 ≤ |rayA s O d|) :
    s.Evaluate (s.Intersect O d tMin tMax).Point = 0 := by
  obtain ⟨t0, t1, u, hS, hu, he, hc⟩ := intersect_hit_shape s O d tMin tMax hhit
  rw [he, finishHit_Point, evaluate_pointAt]
  obtain ⟨h0, h1, _⟩ := solveQuadratic_roots _ _ _ _ _ hS hA
  rcases hu with h | h
  · rw [h]
    exact h0
  · rw [h]
    exact h1

-- ===========================================================================
-- Theorems: degenerate bounding boxes (claim C5)
-- ===========================================================================

/-- Claim C5 (amended): a degenerate box (some Min component strictly above
the matching Max component) rejects every containment query, and every
QuadricSurface with such a box enabled never reports a hit; the raw
BoundingBox slab test itself, however, can still return true for such a box
(see the counterexample). -/
theorem bbox_degenerate_rejects (b : BoundingBox)
    (hdeg : b.Max.x < b.Min.x ∨ b.Max.y < b.Min.y ∨ b.Max.z < b.Min.z) :
    (∀ p : Vec3, ¬ b.Contains p) ∧
    (∀ (s : QuadricSurface) (O d : Vec3) (tMin tMax : ℝ),
      s.m_BoundingBox = b → s.m_UseBoundingBox = true →
      (s.Intersect O d tMin tMax).Hit = false) := by
  have hnc : ∀ p : Vec3, ¬ b.Contains p := by
    intro p hp
    obtain ⟨h1, h2, h3, h4, h5, h6⟩ := hp
    rcases hdeg with h | h | h <;> linarith
  refine ⟨hnc, ?_⟩
  intro s O d tMin tMax hb huse
  rcases intersect_cases s O d tMin tMax with hm | ⟨t0, t1, u, _, _, he, hc⟩
  · rw [hm]
    rfl
  · exfalso
    apply hnc (pointAt O d u)
    rw [← hb]
    exact hc huse

-- ===========================================================================
-- Theorems: root-selection policy (claim C1)
-- ===========================================================================

/-- Claim C1: given the narrowed range (lo, hi) from the bounding-box phase
and solver roots t0 ≤ t1, Intersect uses t0 when t0 is in range (and passes
containment when a box is enabled); otherwise t1 when t1 is in range (and
passes containment); otherwise it misses.  When a box is enabled and t0 is in
range but its point fails Contains, the in-range t1 is retried: Hit=true at
t1 when t1's point is inside the box, a miss when it is not (or t1 is out of
range). -/
theorem intersect_root_selection (s : QuadricSurface) (O d : Vec3)
    (tMin tMax : ℝ) (lo hi : FE) (t0 t1 : ℝ)
    (hrange : s.intersectRange O d tMin tMax = some (lo, hi))
    (hsolve : SolveQuadratic (rayA s O d) (rayB s O d) (rayC s O d)
      = some (t0, t1))
    (hsorted : t0 ≤ t1) :
    (inRangeFE lo hi t0 →
      (s.m_UseBoundingBox = false ∨
        s.m_BoundingBox.Contains (pointAt O d t0)) →
      (s.Intersect O d tMin tMax).Hit = true ∧
      (s.Intersect O d tMin tMax).Distance = t0) ∧
    (¬ inRangeFE lo hi t0 → inRangeFE lo hi t1 →
      (s.m_UseBoundingBox = false ∨
        s.m_BoundingBox.Contains (pointAt O d t1)) →
      (s.Intersect O d tMin tMax).Hit = true ∧
      (s.Intersect O d tMin tMax).Distance = t1) ∧
    (¬ inRangeFE lo hi t0 → ¬ inRangeFE lo hi t1 →
      (s.Intersect O d tMin tMax).Hit = false) ∧
    (inRangeFE lo hi t0 → s.m_UseBoundingBox = true →
      ¬ s.m_BoundingBox.Contains (pointAt O d t0) → inRangeFE lo hi t1 →
      s.m_BoundingBox.Contains (pointAt O d t1) →
      (s.Intersect O d tMin tMax).Hit = true ∧
      (s.Intersect O d tMin tMax).Distance = t1) ∧
    (inRangeFE lo hi t0 → s.m_UseBoundingBox = true →
      ¬ s.m_BoundingBox.Contains (pointAt O d t0) →
      (¬ inRangeFE lo hi t1 ∨ ¬ s.m_BoundingBox.Contains (pointAt O d t1)) →
      (s.Intersect O d tMin tMax).Hit = false) := by
  have hI : s.Intersect O d tMin tMax = s.selectRoot O d lo hi t0 t1 := by
    simp only [QuadricSurface.Intersect, hrange, hsolve]
  refine ⟨?_, ?_, ?_, ?_, ?_⟩
  · intro h0 hok
    rw [hI]
    simp only [QuadricSurface.selectRoot]
    rw [if_pos h0]
    simp only [QuadricSurface.clipAndFinish]
    have hguard : ¬ (s.m_UseBoundingBox = true ∧
        ¬ s.m_BoundingBox.Contains (pointAt O d t0)) := by
      rcases hok with hfalse | hcont
      · intro hand
        rw [hfalse] at hand
        exact absurd hand.1 (by simp)
      · intro hand
        exact hand.2 hcont
    rw [if_neg hguard]
    exact ⟨rfl, rfl⟩
  · intro hn0 h1 hok
    rw [hI]
    simp only [QuadricSurface.selectRoot]
    rw [if_neg hn0, if_pos h1]
    simp only [QuadricSurface.clipAndFinish]
    have hguard : ¬ (s.m_UseBoundingBox = true ∧
        ¬ s.m_BoundingBox.Contains (pointAt O d t1)) := by
      rcases hok with hfalse | hcont
      · intro hand
        rw [hfalse] at hand
        exact absurd hand.1 (by simp)
      · intro hand
        exact hand.2 hcont
    rw [if_neg hguard]
    exact ⟨rfl, rfl⟩
  · intro hn0 hn1
    rw [hI]
    simp only [QuadricSurface.selectRoot]
    rw [if_neg hn0, if_neg hn1]
    rfl
  · intro h0 huse hnc0 h1 hc1
    rw [hI]
    simp only [QuadricSurface.selectRoot]
    rw [if_pos h0]
    simp only [QuadricSurface.clipAndFinish]
    rw [if_pos ⟨huse, hnc0⟩, if_pos ⟨trivial, h1⟩, if_neg (not_not_intro hc1)]
    exact ⟨rfl, rfl⟩
  · intro h0 huse hnc0 hbad
    rw [hI]
    simp only [QuadricSurface.selectRoot]
    rw [if_pos h0]
    simp only [QuadricSurface.clipAndFinish]
    rw [if_pos ⟨huse, hnc0⟩]
    rcases hbad with hn1 | hnc1
    · rw [if_neg (fun hand => hn1 hand.2)]
      rfl
    · by_cases h1 : inRangeFE lo hi t1
      · rw [if_pos ⟨trivial, h1⟩, if_pos hnc1]
        rfl
      · rw [if_neg (fun hand => h1 hand.2)]
        rfl

-- ===========================================================================
-- Concrete evaluation: sphere of radius 2, ray from (0,0,5) toward -z
-- ===========================================================================

theorem sqrt_sixteen : Real.sqrt 16 = 4 :=
  sqrt_eq_of_sq 16 4 (by norm_num) (by norm_num)

theorem sphere2_rayA :
    rayA (QuadricSurface.CreateSphere 2) ⟨0, 0, 5⟩ ⟨0, 0, -1⟩ = 1 := by
  simp only [rayA, QuadricSurface.CreateSphere]
  norm_num

theorem sphere2_rayB :
    rayB (QuadricSurface.CreateSphere 2) ⟨0, 0, 5⟩ ⟨0, 0, -1⟩ = -10 := by
  simp only [rayB, QuadricSurface.CreateSphere]
  norm_num

theorem sphere2_rayC :
    rayC (QuadricSurface.CreateSphere 2) ⟨0, 0, 5⟩ ⟨0, 0, -1⟩ = 21 := by
  simp only [rayC, QuadricSurface.CreateSphere]
  norm_num

theorem solve_sphere : SolveQuadratic 1 (-10) 21 = some (3, 7) := by
  simp only [SolveQuadratic]
  rw [if_neg (by norm_num), if_neg (by norm_num)]
  have hs : Real.sqrt ((-10 : ℝ) * (-10) - 4 * 1 * 21) = 4 := by
    rw [show ((-10 : ℝ) * (-10) - 4 * 1 * 21) = 16 by norm_num]
    exact sqrt_sixteen
  rw [hs]
  have hq : solveQ (-10) 4 = 3 := by
    rw [solveQ, if_pos (by norm_num)]
    norm_num
  rw [hq, if_neg (by norm_num)]
  norm_num

theorem sphere2_range :
    (QuadricSurface.CreateSphere 2).intersectRange ⟨0, 0, 5⟩ ⟨0, 0, -1⟩
      0.001 1000 = some (FE.fin 0.001, FE.fin 1000) := rfl

theorem sphere2_point : pointAt ⟨0, 0, 5⟩ ⟨0, 0, -1⟩ 3 = (⟨0, 0, 2⟩ : Vec3) := by
  simp only [pointAt, Vec3.mk.injEq]
  norm_num

theorem sphere2_normal :
    (QuadricSurface.CreateSphere 2).CalculateNormal ⟨0, 0, 2⟩
      = (⟨0, 0, 4⟩ : Vec3) := by
  simp only [QuadricSurface.CalculateNormal, QuadricSurface.CreateSphere,
    Vec3.mk.injEq]
  norm_num

theorem vnormalize_004 : vnormalize ⟨0, 0, 4⟩ = (⟨0, 0, 1⟩ : Vec3) := by
  have hv : vnorm ⟨0, 0, 4⟩ = 4 := by
    rw [vnorm, show dot ⟨0, 0, 4⟩ ⟨0, 0, 4⟩ = (16 : ℝ) by
      simp only [dot]; norm_num]
    exact sqrt_sixteen
  simp only [vnormalize, hv, Vec3.mk.injEq]
  norm_num

theorem sphere2_intersect :
    (QuadricSurface.CreateSphere 2).Intersect ⟨0, 0, 5⟩ ⟨0, 0, -1⟩ 0.001 1000
      = ⟨true, 3, ⟨0, 0, 2⟩, ⟨0, 0, 1⟩⟩ := by
  have hI : (QuadricSurface.CreateSphere 2).Intersect ⟨0, 0, 5⟩ ⟨0, 0, -1⟩
      0.001 1000 = (QuadricSurface.CreateSphere 2).selectRoot ⟨0, 0, 5⟩
      ⟨0, 0, -1⟩ (FE.fin 0.001) (FE.fin 1000) 3 7 := by
    simp only [QuadricSurface.Intersect, sphere2_range, sphere2_rayA,
      sphere2_rayB, sphere2_rayC, solve_sphere]
  rw [hI]
  simp only [QuadricSurface.selectRoot]
  have hin : inRangeFE (FE.fin 0.001) (FE.fin 1000) 3 :=
    ⟨by rw [fle_fin_fin]; norm_num, by rw [fle_fin_fin]; norm_num⟩
  rw [if_pos hin]
  simp only [QuadricSurface.clipAndFinish]
  rw [if_neg (fun hand => by
    simpa [QuadricSurface.CreateSphere] using hand.1)]
  rw [sphere2_point]
  simp only [QuadricSurface.finishHit, sphere2_normal]
  rw [if_neg (by
    rw [show dot ⟨0, 0, 4⟩ ⟨0, 0, -1⟩ = (-4 : ℝ) by simp only [dot]; norm_num]
    norm_num)]
  rw [vnormalize_004]

-- ===========================================================================
-- Theorems: concrete sphere postcondition (claim C6)
-- ===========================================================================

/-- Claim C6: for the sphere of radius 2, the ray from (0,0,5) with direction
(0,0,-1) and the default range [0.001, 1000] hits at distance 3, point
(0,0,2), with unit normal (0,0,1). -/
theorem sphere_intersect_concrete :
    (QuadricSurface.CreateSphere 2).Intersect ⟨0, 0, 5⟩ ⟨0, 0, -1⟩ 0.001 1000
      = ⟨true, 3, ⟨0, 0, 2⟩, ⟨0, 0, 1⟩⟩ := sphere2_intersect

/-- Claim C1 (witness): the root-selection theorem applied to the concrete
sphere configuration, where t0 = 3 is in range and selected. -/
theorem intersect_root_selection_witness :
    ((QuadricSurface.CreateSphere 2).Intersect ⟨0, 0, 5⟩ ⟨0, 0, -1⟩
      0.001 1000).Hit = true ∧
    ((QuadricSurface.CreateSphere 2).Intersect ⟨0, 0, 5⟩ ⟨0, 0, -1⟩
      0.001 1000).Distance = 3 := by
  have h := intersect_root_selection (QuadricSurface.CreateSphere 2)
    ⟨0, 0, 5⟩ ⟨0, 0, -1⟩ 0.001 1000 (FE.fin 0.001) (FE.fin 1000) 3 7
    sphere2_range
    (by rw [sphere2_rayA, sphere2_rayB, sphere2_rayC]; exact solve_sphere)
    (by norm_num)
  exact h.1 ⟨by rw [fle_fin_fin]; norm_num, by rw [fle_fin_fin]; norm_num⟩
    (Or.inl rfl)

/-- Claim C3 (witness): the normal invariant at the concrete sphere hit,
whose gradient (0,0,4) is nonzero. -/
theorem intersect_normal_invariant_witness :
    vnorm ((QuadricSurface.CreateSphere 2).Intersect ⟨0, 0, 5⟩ ⟨0, 0, -1⟩
      0.001 1000).Normal = 1 ∧
    dot ((QuadricSurface.CreateSphere 2).Intersect ⟨0, 0, 5⟩ ⟨0, 0, -1⟩
      0.001 1000).Normal ⟨0, 0, -1⟩ ≤ 0 := by
  apply intersect_normal_invariant
  · rw [sphere2_intersect]
  · rw [sphere2_intersect]
    show (QuadricSurface.CreateSphere 2).CalculateNormal ⟨0, 0, 2⟩ ≠ ⟨0, 0, 0⟩
    rw [sphere2_normal]
    intro hc
    rw [Vec3.mk.injEq] at hc
    exact absurd hc.2.2 (by norm_num)

/-- Claim C4 (witness): the amended evaluate-zero theorem at the concrete
sphere hit, where the t²-coefficient is 1 ≥ 1e-6. -/
theorem intersect_hit_evaluate_zero_witness :
    (QuadricSurface.CreateSphere 2).Evaluate
      ((QuadricSurface.CreateSphere 2).Intersect ⟨0, 0, 5⟩ ⟨0, 0, -1⟩
        0.001 1000).Point = 0 := by
  apply intersect_hit_evaluate_zero
  · rw [sphere2_intersect]
  · right
    rw [sphere2_rayA]
    norm_num

-- ===========================================================================
-- Theorems: the solver's sign choice for q (claim C2)
-- ===========================================================================

/-- Claim C2: the code's intermediate value q uses the OPPOSITE sign choice
from the claim's formula: at (A,B,C) = (1,-3,2) the code computes q = 1 while
(−b − sign(b)·√disc)/2 = 2.  In exact arithmetic the sorted roots (1,2) still
agree, but in general the code's q equals (−b + sign(b)·√disc)/2 — the
cancellation-prone choice, contradicting the stability comment. -/
theorem solveQ_sign_flipped :
    solveQ (-3) (Real.sqrt ((-3 : ℝ) * (-3) - 4 * 1 * 2)) = 1 ∧
    specQ (-3) (Real.sqrt ((-3 : ℝ) * (-3) - 4 * 1 * 2)) = 2 ∧
    SolveQuadratic 1 (-3) 2 = some (1, 2) ∧
    (∀ B sq : ℝ, solveQ B sq
      = (-B + (if B < 0 then (-1 : ℝ) else 1) * sq) / 2) := by
  have hs : Real.sqrt ((-3 : ℝ) * (-3) - 4 * 1 * 2) = 1 := by
    rw [show ((-3 : ℝ) * (-3) - 4 * 1 * 2) = 1 by norm_num]
    exact Real.sqrt_one
  have hq : solveQ (-3) (1 : ℝ) = 1 := by
    rw [solveQ, if_pos (by norm_num)]
    norm_num
  refine ⟨by rw [hs]; exact hq, ?_, ?_, ?_⟩
  · rw [hs, specQ, if_pos (by norm_num)]
    norm_num
  · simp only [SolveQuadratic]
    rw [if_neg (by norm_num), if_neg (by norm_num), hs, hq,
      if_neg (by norm_num)]
    norm_num
  · intro B sq
    rw [solveQ]
    split_ifs <;> ring

-- ===========================================================================
-- Theorems: sub-threshold leading coefficient breaks Evaluate≈0 (claim C4)
-- ===========================================================================

/-- Claim C4 (counterexample): with the t²-coefficient a = 1/2000000 (nonzero
but below the 1e-6 threshold), Intersect reports a hit whose point does NOT
satisfy the surface equation: the residual is 1/2, not 0. -/
theorem linear_fallback_violates_evaluate :
    (linThresholdSurface.Intersect ⟨0, 0, 0⟩ ⟨1, 0, 0⟩ 0.001 1000).Hit
      = true ∧
    linThresholdSurface.Evaluate
      (linThresholdSurface.Intersect ⟨0, 0, 0⟩ ⟨1, 0, 0⟩ 0.001 1000).Point
      = 1 / 2 ∧
    (1 / 2 : ℝ) ≠ 0 := by
  have hA : rayA linThresholdSurface ⟨0, 0, 0⟩ ⟨1, 0, 0⟩ = 1 / 2000000 := by
    simp only [rayA, linThresholdSurface]
    norm_num
  have hB : rayB linThresholdSurface ⟨0, 0, 0⟩ ⟨1, 0, 0⟩ = 1 := by
    simp only [rayB, linThresholdSurface]
    norm_num
  have hC : rayC linThresholdSurface ⟨0, 0, 0⟩ ⟨1, 0, 0⟩ = -1000 := by
    simp only [rayC, linThresholdSurface]
    norm_num
  have hsolve : SolveQuadratic (1 / 2000000) 1 (-1000) = some (1000, 1000) := by
    simp only [SolveQuadratic]
    rw [if_pos (by rw [abs_of_pos (by norm_num)]; norm_num),
      if_neg (by rw [abs_one]; norm_num)]
    norm_num
  have hrange : linThresholdSurface.intersectRange ⟨0, 0, 0⟩ ⟨1, 0, 0⟩
      0.001 1000 = some (FE.fin 0.001, FE.fin 1000) := rfl
  have hin : inRangeFE (FE.fin 0.001) (FE.fin 1000) 1000 :=
    ⟨by rw [fle_fin_fin]; try norm_num, by rw [fle_fin_fin]; try norm_num⟩
  have hsel : linThresholdSurface.Intersect ⟨0, 0, 0⟩ ⟨1, 0, 0⟩ 0.001 1000
      = linThresholdSurface.finishHit ⟨1, 0, 0⟩ 1000
          (pointAt ⟨0, 0, 0⟩ ⟨1, 0, 0⟩ 1000) := by
    have hI : linThresholdSurface.Intersect ⟨0, 0, 0⟩ ⟨1, 0, 0⟩ 0.001 1000
        = linThresholdSurface.selectRoot ⟨0, 0, 0⟩ ⟨1, 0, 0⟩ (FE.fin 0.001)
            (FE.fin 1000) 1000 1000 := by
      simp only [QuadricSurface.Intersect, hrange, hA, hB, hC, hsolve]
    rw [hI]
    simp only [QuadricSurface.selectRoot]
    rw [if_pos hin]
    simp only [QuadricSurface.clipAndFinish]
    rw [if_neg (fun hand => by simpa [linThresholdSurface] using hand.1)]
  refine ⟨by rw [hsel]; rfl, ?_, by norm_num⟩
  rw [hsel, finishHit_Point, evaluate_pointAt, hA, hB, hC]
  norm_num

-- ===========================================================================
-- Theorems: degenerate boxes and the slab test (claim C5)
-- ===========================================================================

/-- Claim C5 (counterexample): the degenerate box Min=(1,-1,-1),
Max=(-1,1,1) has Min.x > Max.x, yet the raw slab test still reports a hit for
the ray from the origin along +x, so BoundingBox::Intersect does NOT reject
every ray on a degenerate box. -/
theorem bbox_degenerate_slab_hit :
    ((⟨⟨1, -1, -1⟩, ⟨-1, 1, 1⟩⟩ : BoundingBox).Min.x
      > (⟨⟨1, -1, -1⟩, ⟨-1, 1, 1⟩⟩ : BoundingBox).Max.x) ∧
    ((⟨⟨1, -1, -1⟩, ⟨-1, 1, 1⟩⟩ : BoundingBox).Intersect
      ⟨0, 0, 0⟩ ⟨1, 0, 0⟩).1 := by
  constructor
  · show (1 : ℝ) > -1
    norm_num
  · norm_num [BoundingBox.Intersect, fdiv_of_ne, fdiv_zero_pos,
      fdiv_zero_neg, fmin_fin_fin, fmax_fin_fin, fmin_ninf_pinf,
      fmax_ninf_pinf, fmax_fin_ninf, fmin_fin_pinf, fle_fin_fin]

/-- Claim C5 (witness): the amended theorem applied to the concrete
degenerate box: containment of the origin is rejected, and a sphere clipped
by that box misses a ray that would hit the unclipped sphere. -/
theorem bbox_degenerate_rejects_witness :
    (¬ (⟨⟨1, -1, -1⟩, ⟨-1, 1, 1⟩⟩ : BoundingBox).Contains ⟨0, 0, 0⟩) ∧
    ((⟨⟨1, 1, 1, 0, 0, 0, 0, 0, 0, -4⟩, ⟨⟨1, -1, -1⟩, ⟨-1, 1, 1⟩⟩, true⟩ :
        QuadricSurface).Intersect ⟨0, 0, 5⟩ ⟨0, 0, -1⟩ 0.001 1000).Hit
      = false := by
  have h := bbox_degenerate_rejects ⟨⟨1, -1, -1⟩, ⟨-1, 1, 1⟩⟩
    (Or.inl (by show (-1 : ℝ) < 1; norm_num))
  exact ⟨h.1 ⟨0, 0, 0⟩, h.2 _ ⟨0, 0, 5⟩ ⟨0, 0, -1⟩ 0.001 1000 rfl rfl⟩

-- ===========================================================================
-- Theorems: height-clipped cylinder miss (claim C7)
-- ===========================================================================

/-- The slab test of the cylinder's box rejects the ray from (0,0,10) along
+x: the zero y and z direction components produce ±infinity; on the z axis
both slab distances are -infinity, collapsing tMax to -infinity. -/
theorem cyl_box_miss :
    ¬ ((QuadricSurface.CreateCylinder 1.5 10).m_BoundingBox.Intersect
      ⟨0, 0, 10⟩ ⟨1, 0, 0⟩).1 := by
  norm_num [QuadricSurface.CreateCylinder, BoundingBox.Intersect, fdiv_of_ne,
    fdiv_zero_pos, fdiv_zero_neg, fmin_fin_fin, fmax_fin_fin, fmin_ninf_pinf,
    fmax_ninf_pinf, fmax_fin_ninf, fmin_fin_ninf, fmin_fin_pinf,
    fmin_ninf_ninf, fmax_ninf_ninf, fle_fin_ninf, fle_fin_fin]

/-- Claim C7: CreateCylinder(1.5, 10) with the ray origin (0,0,10) and
direction (1,0,0) reports no hit (the origin is above the height-clipped
region), even though the quadratic for the infinite cylinder has real roots
±1.5 — the zero direction components must not produce a spurious box hit. -/
theorem cylinder_clipped_miss :
    ((QuadricSurface.CreateCylinder 1.5 10).Intersect ⟨0, 0, 10⟩ ⟨1, 0, 0⟩
      0.001 1000).Hit = false ∧
    SolveQuadratic
      (rayA (QuadricSurface.CreateCylinder 1.5 10) ⟨0, 0, 10⟩ ⟨1, 0, 0⟩)
      (rayB (QuadricSurface.CreateCylinder 1.5 10) ⟨0, 0, 10⟩ ⟨1, 0, 0⟩)
      (rayC (QuadricSurface.CreateCylinder 1.5 10) ⟨0, 0, 10⟩ ⟨1, 0, 0⟩)
      = some (-1.5, 1.5) := by
  constructor
  · have hrange : (QuadricSurface.CreateCylinder 1.5 10).intersectRange
        ⟨0, 0, 10⟩ ⟨1, 0, 0⟩ 0.001 1000 = none := by
      have huse : (QuadricSurface.CreateCylinder 1.5 10).m_UseBoundingBox
          = true := rfl
      simp only [QuadricSurface.intersectRange]
      rw [if_pos huse, if_neg cyl_box_miss]
    simp only [QuadricSurface.Intersect, hrange]
    rfl
  · have hA : rayA (QuadricSurface.CreateCylinder 1.5 10) ⟨0, 0, 10⟩
        ⟨1, 0, 0⟩ = 1 := by
      simp only [rayA, QuadricSurface.CreateCylinder]
      norm_num
    have hB : rayB (QuadricSurface.CreateCylinder 1.5 10) ⟨0, 0, 10⟩
        ⟨1, 0, 0⟩ = 0 := by
      simp only [rayB, QuadricSurface.CreateCylinder]
      norm_num
    have hC : rayC (QuadricSurface.CreateCylinder 1.5 10) ⟨0, 0, 10⟩
        ⟨1, 0, 0⟩ = -2.25 := by
      simp only [rayC, QuadricSurface.CreateCylinder]
      norm_num
    rw [hA, hB, hC]
    simp only [SolveQuadratic]
    rw [if_neg (by norm_num), if_neg (by norm_num)]
    have hs : Real.sqrt ((0 : ℝ) * 0 - 4 * 1 * (-2.25)) = 3 := by
      rw [show ((0 : ℝ) * 0 - 4 * 1 * (-2.25)) = 9 by norm_num]
      exact sqrt_eq_of_sq 9 3 (by norm_num) (by norm_num)
    rw [hs]
    have hq : solveQ 0 3 = 1.5 := by
      rw [solveQ, if_neg (by norm_num)]
      norm_num
    rw [hq, if_pos (by norm_num)]
    norm_num
